import Mathlib

/-!
Verification of the `CircularEngine` component of GeographicLib
(`include/GeographicLib/CircularEngine.hpp`).

The machine real type `Math::real` is modelled by `ℚ`; the radian trig
functions of the standard library and the degree-to-radian factor
`Math::degree` are kept abstract (structure `TrigLib`), since none of the
verified properties depend on their values.  The Clenshaw summation body
`CircularEngine::Value` is declared in the header but defined in a separate
translation unit that is not among the sources; it is modelled from the
specification (see its doc comment).
-/

namespace GeographicLib

/-- Abstract stand-in for the math library used by `cossin`: the radian
cosine and sine, and the degree-to-radian conversion factor
`Math::degree` (π / 180).  The properties proved about `cossin` hold for
every choice of these functions. -/
structure TrigLib where
  cos : ℚ → ℚ
  sin : ℚ → ℚ
  degree : ℚ

/-- The wrap step of `CircularEngine::cossin`, line
`x = x >= 180 ? x - 360 : (x < -180 ? x + 360 : x);`. -/
def wrap (x : ℚ) : ℚ :=
  if x ≥ 180 then x - 360 else if x < -180 then x + 360 else x

/-- `CircularEngine::cossin`: wrap the longitude, convert to radians, and
take cosine and sine, forcing `cos = 0` when `|x| == 90` and `sin = 0`
when `x == -180` (lines 54-59 of the header). -/
def cossin (lib : TrigLib) (x : ℚ) : ℚ × ℚ :=
  let x1 := wrap x
  let xi := x1 * lib.degree
  (if |x1| = 90 then 0 else lib.cos xi,
   if x1 = -180 then 0 else lib.sin xi)

/-- The private `normalization` enum of `CircularEngine`. -/
inductive normalization where
  | full
  | schmidt
  deriving DecidableEq

/-- `Math::sq`. -/
def sq (x : ℚ) : ℚ := x * x

/-- The state of a `CircularEngine` object: the fields `_M`, `_gradp`,
`_norm`, `_scale`, `_a`, `_r`, `_u`, `_t`, the six coefficient vectors
`_wc`, `_ws`, `_wrc`, `_wrs`, `_wtc`, `_wts`, and the cached `_q`, `_uq`,
`_uq2`.  The `int _M` is modelled as `ℕ` (the caller contract requires
`M ≥ 0`). -/
structure CircularEngine where
  M : ℕ
  gradp : Bool
  norm : normalization
  scale : ℚ
  a : ℚ
  r : ℚ
  u : ℚ
  t : ℚ
  wc : List ℚ
  ws : List ℚ
  wrc : List ℚ
  wrs : List ℚ
  wtc : List ℚ
  wts : List ℚ
  q : ℚ
  uq : ℚ
  uq2 : ℚ

/-- The `CircularEngine` constructor (lines 83-103): stores the eight
parameters, allocates the value arrays with `M + 1` zeros, the gradient
arrays with `M + 1` zeros when `gradp` and `0` elements otherwise, and
caches `_q = _a / _r`, `_uq = _u * _q`, `_uq2 = sq(_uq)`. -/
def CircularEngine.create (M : ℕ) (gradp : Bool) (norm : normalization)
    (scale a r u t : ℚ) : CircularEngine :=
  let q := a / r
  let uq := u * q
  { M := M
    gradp := gradp
    norm := norm
    scale := scale
    a := a
    r := r
    u := u
    t := t
    wc := List.replicate (M + 1) 0
    ws := List.replicate (M + 1) 0
    wrc := List.replicate (if gradp then M + 1 else 0) 0
    wrs := List.replicate (if gradp then M + 1 else 0) 0
    wtc := List.replicate (if gradp then M + 1 else 0) 0
    wts := List.replicate (if gradp then M + 1 else 0) 0
    q := q
    uq := uq
    uq2 := sq uq }

/-- The three-argument `SetCoeff` overload (lines 114-115):
`_wc[m] = wc; _ws[m] = ws;`. -/
def CircularEngine.SetCoeff (e : CircularEngine) (m : ℕ) (wc ws : ℚ) :
    CircularEngine :=
  { e with wc := e.wc.set m wc, ws := e.ws.set m ws }

/-- The seven-argument `SetCoeff` overload (lines 134-141): stores the
value coefficients unconditionally and the four derivative coefficients
only under the `if (_gradp)` guard. -/
def CircularEngine.SetCoeffGrad (e : CircularEngine) (m : ℕ)
    (wc ws wrc wrs wtc wts : ℚ) : CircularEngine :=
  if e.gradp then
    { e with wc := e.wc.set m wc, ws := e.ws.set m ws,
             wrc := e.wrc.set m wrc, wrs := e.wrs.set m wrs,
             wtc := e.wtc.set m wtc, wts := e.wts.set m wts }
  else
    { e with wc := e.wc.set m wc, ws := e.ws.set m ws }

/-- Bounds-checked list update: `some` of the updated list when the index
is in range, `none` otherwise.  Used to express the memory-safety reading
of the unchecked `std::vector::operator[]` writes in `SetCoeff`. -/
def setChecked (l : List ℚ) (i : ℕ) (v : ℚ) : Option (List ℚ) :=
  if i < l.length then some (l.set i v) else none

/-- The three-argument `SetCoeff` with every array write bounds-checked. -/
def CircularEngine.SetCoeffChecked (e : CircularEngine) (m : ℕ)
    (wc ws : ℚ) : Option CircularEngine := do
  let wcL ← setChecked e.wc m wc
  let wsL ← setChecked e.ws m ws
  pure { e with wc := wcL, ws := wsL }

/-- The seven-argument `SetCoeff` with every array write bounds-checked;
the gradient arrays are only touched under the `_gradp` guard, exactly as
in the source. -/
def CircularEngine.SetCoeffGradChecked (e : CircularEngine) (m : ℕ)
    (wc ws wrc wrs wtc wts : ℚ) : Option CircularEngine := do
  let wcL ← setChecked e.wc m wc
  let wsL ← setChecked e.ws m ws
  if e.gradp then
    let wrcL ← setChecked e.wrc m wrc
    let wrsL ← setChecked e.wrs m wrs
    let wtcL ← setChecked e.wtc m wtc
    let wtsL ← setChecked e.wts m wts
    pure { e with wc := wcL, ws := wsL, wrc := wrcL, wrs := wrsL,
                  wtc := wtcL, wts := wtsL }
  else
    pure { e with wc := wcL, ws := wsL }

/-- Backward (Clenshaw) recurrence over a coefficient list: starting from
the two zero-seeded highest virtual registers, each step computes
`b(m) = A * b(m+1) - b(m+2) + coeff(m)` going from the highest order down
to order 0; the result is the pair of the two lowest registers
`(b(0), b(1))`. -/
def clenshaw (A : ℚ) (coeffs : List ℚ) : ℚ × ℚ :=
  coeffs.foldr (fun cm st => (A * st.1 - st.2 + cm, st.1)) (0, 0)

/-- Multiply each list element by its index (starting at `i`); used for the
order-weighted coefficients of the longitude derivative, where
differentiating `cos(mλ)` and `sin(mλ)` introduces a factor of `m`. -/
def idxWeight : ℕ → List ℚ → List ℚ
  | _, [] => []
  | i, v :: l => (i : ℚ) * v :: idxWeight (i + 1) l

/-- Modelled from the spec: the body of `CircularEngine::Value` (the
Clenshaw summation core, declared at lines 51-52 of the header) is defined
in `CircularEngine.cpp`, which is not among the sources.  Following
section 4.3 of the specification: the value is the Clenshaw sum of the
`_wc`/`_ws` channels with multiplier `2 * cosLon`, recovered from the two
lowest registers combined with `cosLon`/`sinLon` and multiplied by
`_scale`.  When the gradient is requested, the radial partial is the
Clenshaw sum of the `_wrc`/`_wrs` channels, the colatitude partial that of
the `_wtc`/`_wts` channels, and the longitude partial a variant Clenshaw
sum of the order-weighted value coefficients; the three spherical partials
are then projected to Cartesian components by the standard chain rule,
linearly in the partials, using `cosLon`, `sinLon`, `_u`, `_t` and the
cached `_q`, `_uq` factors, and multiplied by `_scale`.  The exact
projection coefficients are an open question in the spec; every property
proved below depends only on the linearity of this combination. -/
def CircularEngine.Value (e : CircularEngine) (gradp : Bool) (cl sl : ℚ) :
    ℚ × ℚ × ℚ × ℚ :=
  let A := 2 * cl
  let bc := clenshaw A e.wc
  let bs := clenshaw A e.ws
  let v := e.scale * ((bc.1 - cl * bc.2) + sl * bs.2)
  if gradp then
    let brc := clenshaw A e.wrc
    let brs := clenshaw A e.wrs
    let btc := clenshaw A e.wtc
    let bts := clenshaw A e.wts
    let dr := (brc.1 - cl * brc.2) + sl * brs.2
    let dt := (btc.1 - cl * btc.2) + sl * bts.2
    let blc := clenshaw A (idxWeight 0 e.ws)
    let bls := clenshaw A (idxWeight 0 e.wc)
    let dl := (blc.1 - cl * blc.2) - sl * bls.2
    (v,
     e.scale * (cl * (e.u * dr + e.t * e.q * dt) - sl * e.uq * dl),
     e.scale * (sl * (e.u * dr + e.t * e.q * dt) + cl * e.uq * dl),
     e.scale * (e.t * dr - e.u * e.q * dt))
  else
    (v, 0, 0, 0)

/-- `operator()(real coslon, real sinlon)` (lines 164-167): value-only
evaluation, delegating to `Value` with `gradp = false`. -/
def CircularEngine.evalCS (e : CircularEngine) (coslon sinlon : ℚ) : ℚ :=
  (e.Value false coslon sinlon).1

/-- `operator()(real coslon, real sinlon, real, real, real)`
(lines 196-199): gradient evaluation, delegating to `Value` with
`gradp = true`; the three out-parameters are returned as tuple
components. -/
def CircularEngine.evalCSGrad (e : CircularEngine) (coslon sinlon : ℚ) :
    ℚ × ℚ × ℚ × ℚ :=
  e.Value true coslon sinlon

/-- `operator()(real lon)` (lines 150-154): reduces the longitude with
`cossin` and delegates to the `(cos, sin)` overload. -/
def CircularEngine.evalLon (e : CircularEngine) (lib : TrigLib) (lon : ℚ) :
    ℚ :=
  let cs := cossin lib lon
  e.evalCS cs.1 cs.2

/-- `operator()(real lon, real, real, real)` (lines 178-183): reduces the
longitude with `cossin` and delegates to the gradient `(cos, sin)`
overload. -/
def CircularEngine.evalLonGrad (e : CircularEngine) (lib : TrigLib)
    (lon : ℚ) : ℚ × ℚ × ℚ × ℚ :=
  let cs := cossin lib lon
  e.evalCSGrad cs.1 cs.2

/-- A call to the const method `operator()(real lon)` on an object,
returning the result together with the post-call object state.  The
method is `const` and the class has no `mutable` members, so the embedding
of a call is the pure result paired with the unchanged state. -/
def CircularEngine.callLon (e : CircularEngine) (lib : TrigLib) (lon : ℚ) :
    ℚ × CircularEngine :=
  (e.evalLon lib lon, e)

/-- A call to the const method `operator()(real coslon, real sinlon)`,
with the post-call object state. -/
def CircularEngine.callCS (e : CircularEngine) (coslon sinlon : ℚ) :
    ℚ × CircularEngine :=
  (e.evalCS coslon sinlon, e)

/-- A call to the gradient-returning const method on a longitude, with the
post-call object state. -/
def CircularEngine.callLonGrad (e : CircularEngine) (lib : TrigLib)
    (lon : ℚ) : (ℚ × ℚ × ℚ × ℚ) × CircularEngine :=
  (e.evalLonGrad lib lon, e)

/-- A call to the gradient-returning const method on a `(cos, sin)` pair,
with the post-call object state. -/
def CircularEngine.callCSGrad (e : CircularEngine) (coslon sinlon : ℚ) :
    (ℚ × ℚ × ℚ × ℚ) × CircularEngine :=
  (e.evalCSGrad coslon sinlon, e)

/-- Well-formedness of an engine state: the array-length invariant
established by the constructor (value arrays of length `M + 1`, gradient
arrays of length `M + 1` when `gradp` and `0` otherwise). -/
def WF (e : CircularEngine) : Prop :=
  e.wc.length = e.M + 1 ∧ e.ws.length = e.M + 1 ∧
  e.wrc.length = (if e.gradp then e.M + 1 else 0) ∧
  e.wrs.length = (if e.gradp then e.M + 1 else 0) ∧
  e.wtc.length = (if e.gradp then e.M + 1 else 0) ∧
  e.wts.length = (if e.gradp then e.M + 1 else 0)

/-- All six stored coefficient arrays contain only zeros. -/
def allCoeffsZero (e : CircularEngine) : Prop :=
  (∀ v ∈ e.wc, v = 0) ∧ (∀ v ∈ e.ws, v = 0) ∧ (∀ v ∈ e.wrc, v = 0) ∧
  (∀ v ∈ e.wrs, v = 0) ∧ (∀ v ∈ e.wtc, v = 0) ∧ (∀ v ∈ e.wts, v = 0)

/-- A concrete trig library used to instantiate universally quantified
statements at a specific input. -/
def libW : TrigLib :=
  { cos := fun w => 1 - w, sin := fun w => w + 2, degree := 1 }

/-- A concrete engine with gradient support, `M = 2`. -/
def eW : CircularEngine :=
  CircularEngine.create 2 true normalization.full 6 2 3 4 5

/-- A concrete engine without gradient support, `M = 1`. -/
def eWnog : CircularEngine :=
  CircularEngine.create 1 false normalization.schmidt 1 1 2 3 4

/-! ## Helper lemmas -/

/-- One step of the Clenshaw recurrence on a cons cell. -/
theorem clenshaw_cons (A x : ℚ) (xs : List ℚ) :
    clenshaw A (x :: xs) =
      (A * (clenshaw A xs).1 - (clenshaw A xs).2 + x, (clenshaw A xs).1) :=
  rfl

/-- The Clenshaw recurrence over an all-zero coefficient list stays at the
zero registers. -/
theorem clenshaw_zero (A : ℚ) (l : List ℚ) (h : ∀ v ∈ l, v = 0) :
    clenshaw A l = (0, 0) := by
  induction l with
  | nil => rfl
  | cons x xs ih =>
    have hx : x = 0 := h x (List.mem_cons_self x xs)
    have hxs : ∀ v ∈ xs, v = 0 := fun v hv => h v (List.mem_cons_of_mem x hv)
    rw [clenshaw_cons, ih hxs, hx]
    norm_num

/-- Index-weighting an all-zero list yields an all-zero list. -/
theorem idxWeight_zero (l : List ℚ) :
    (∀ v ∈ l, v = 0) → ∀ i, ∀ w ∈ idxWeight i l, w = 0 := by
  induction l with
  | nil =>
    intro _ i w hw
    simp [idxWeight] at hw
  | cons x xs ih =>
    intro h i w hw
    have hx : x = 0 := h x (List.mem_cons_self x xs)
    have hxs : ∀ v ∈ xs, v = 0 := fun v hv => h v (List.mem_cons_of_mem x hv)
    rw [idxWeight, List.mem_cons] at hw
    rcases hw with h1 | h1
    · rw [h1, hx, mul_zero]
    · exact ih hxs (i + 1) w h1

/-- `Value` on an engine whose coefficient arrays are all zero returns the
zero tuple, for either gradient flag. -/
theorem Value_allZero (e : CircularEngine) (h : allCoeffsZero e)
    (g : Bool) (cl sl : ℚ) : e.Value g cl sl = (0, 0, 0, 0) := by
  obtain ⟨h1, h2, h3, h4, h5, h6⟩ := h
  have z1 := clenshaw_zero (2 * cl) e.wc h1
  have z2 := clenshaw_zero (2 * cl) e.ws h2
  have z3 := clenshaw_zero (2 * cl) e.wrc h3
  have z4 := clenshaw_zero (2 * cl) e.wrs h4
  have z5 := clenshaw_zero (2 * cl) e.wtc h5
  have z6 := clenshaw_zero (2 * cl) e.wts h6
  have z7 := clenshaw_zero (2 * cl) (idxWeight 0 e.ws) (idxWeight_zero e.ws h2 0)
  have z8 := clenshaw_zero (2 * cl) (idxWeight 0 e.wc) (idxWeight_zero e.wc h1 0)
  cases g with
  | false => simp [CircularEngine.Value, z1, z2]
  | true => simp [CircularEngine.Value, z1, z2, z3, z4, z5, z6, z7, z8]

/-! ## Claims -/

/-- C1, counterexample: the wrap step does not land in `[-180, 180)` for
every longitude; at `x = 540` it produces `180`, which lies outside the
interval. -/
theorem wrap_540_outside_range :
    wrap 540 = 180 ∧ ¬ (-180 ≤ wrap (540 : ℚ) ∧ wrap (540 : ℚ) < 180) := by
  norm_num [wrap]

/-- C1, amended: for every longitude within one extra period, i.e.
`-540 ≤ x < 540`, the wrap step of `cossin` produces a representative in
`[-180, 180)`, by subtracting 360 when `x ≥ 180`, adding 360 when
`x < -180`, and leaving `x` unchanged otherwise. -/
theorem wrap_reduces_in_one_period (x : ℚ) (hlow : -540 ≤ x)
    (hhigh : x < 540) :
    (-180 ≤ wrap x ∧ wrap x < 180) ∧
    (x ≥ 180 → wrap x = x - 360) ∧
    (x < -180 → wrap x = x + 360) ∧
    (-180 ≤ x → x < 180 → wrap x = x) := by
  rcases le_or_lt 180 x with hc | hc
  · have hw : wrap x = x - 360 := by
      unfold wrap
      rw [if_pos hc]
    refine ⟨⟨by rw [hw]; linarith, by rw [hw]; linarith⟩,
      fun _ => hw, fun hlt => absurd hlt (by linarith),
      fun _ h180 => absurd h180 (by linarith)⟩
  · by_cases hc2 : x < -180
    · have hw : wrap x = x + 360 := by
        unfold wrap
        rw [if_neg (not_le.mpr hc), if_pos hc2]
      refine ⟨⟨by rw [hw]; linarith, by rw [hw]; linarith⟩,
        fun hge => absurd hge (not_le.mpr hc), fun _ => hw,
        fun h180 _ => absurd h180 (by linarith)⟩
    · have hw : wrap x = x := by
        unfold wrap
        rw [if_neg (not_le.mpr hc), if_neg hc2]
      push_neg at hc2
      refine ⟨⟨by rw [hw]; linarith, by rw [hw]; linarith⟩,
        fun hge => absurd hge (not_le.mpr hc), fun hlt => absurd hlt (by linarith),
        fun _ _ => hw⟩

/-- C1, witness: the amended statement instantiated at `x = 350`. -/
theorem wrap_reduces_in_one_period_witness :
    ((-180 ≤ wrap 350 ∧ wrap 350 < 180) ∧
     ((350 : ℚ) ≥ 180 → wrap 350 = 350 - 360) ∧
     ((350 : ℚ) < -180 → wrap 350 = 350 + 360) ∧
     ((-180 : ℚ) ≤ 350 → (350 : ℚ) < 180 → wrap 350 = 350)) :=
  wrap_reduces_in_one_period 350 (by norm_num) (by norm_num)

/-- C2: after the wrap step, a wrapped angle of absolute value exactly 90
yields cosine exactly 0, a wrapped angle of exactly -180 yields sine
exactly 0, and every other wrapped angle yields the library cosine and
sine of the angle converted to radians. -/
theorem cossin_boundary_exact (lib : TrigLib) (x : ℚ) :
    (|wrap x| = 90 → (cossin lib x).1 = 0) ∧
    (wrap x = -180 → (cossin lib x).2 = 0) ∧
    (|wrap x| ≠ 90 → wrap x ≠ -180 →
      cossin lib x =
        (lib.cos (wrap x * lib.degree), lib.sin (wrap x * lib.degree))) := by
  refine ⟨fun h => ?_, fun h => ?_, fun h1 h2 => ?_⟩
  · simp [cossin, h]
  · simp [cossin, h]
  · simp [cossin, h1, h2]

/-- C2, witness: at longitude 90 the cosine is forced to 0, at longitude
-180 the sine is forced to 0. -/
theorem cossin_boundary_exact_witness :
    (cossin libW 90).1 = 0 ∧ (cossin libW (-180)).2 = 0 := by
  constructor
  · exact (cossin_boundary_exact libW 90).1 (by norm_num [wrap])
  · exact (cossin_boundary_exact libW (-180)).2.1 (by norm_num [wrap])

/-- C3: reducing longitude 180 yields exactly the same `(cos, sin)` pair
as reducing longitude -180, because both wrap to the representative -180
before the trigonometric evaluation. -/
theorem cossin_180_eq_cossin_neg180 (lib : TrigLib) :
    cossin lib 180 = cossin lib (-180) := by
  have h : wrap (180 : ℚ) = wrap (-180 : ℚ) := by norm_num [wrap]
  simp only [cossin, h]

/-- C4: the degree-taking evaluation operator is exactly the composition
of angle reduction with the `(cos, sin)`-taking operator, both in the
value-only form and in the gradient-returning form (with identical
gradient out-values). -/
theorem evalLon_delegates (lib : TrigLib) (e : CircularEngine) (lon : ℚ) :
    e.evalLon lib lon = e.evalCS (cossin lib lon).1 (cossin lib lon).2 ∧
    e.evalLonGrad lib lon =
      e.evalCSGrad (cossin lib lon).1 (cossin lib lon).2 :=
  ⟨rfl, rfl⟩

/-- C5: every construction call produces value-coefficient arrays of
exactly `M + 1` zero elements; gradient arrays of `M + 1` zero elements
when `gradp` and of `0` elements otherwise; and cached fields
`_q = a / r`, `_uq = u * _q`, `_uq2 = _uq ^ 2`. -/
theorem create_initial_state (M : ℕ) (gradp : Bool) (nm : normalization)
    (scale a r u t : ℚ) :
    (CircularEngine.create M gradp nm scale a r u t).wc.length = M + 1 ∧
    (CircularEngine.create M gradp nm scale a r u t).ws.length = M + 1 ∧
    (∀ v ∈ (CircularEngine.create M gradp nm scale a r u t).wc, v = 0) ∧
    (∀ v ∈ (CircularEngine.create M gradp nm scale a r u t).ws, v = 0) ∧
    (CircularEngine.create M gradp nm scale a r u t).wrc.length =
      (if gradp then M + 1 else 0) ∧
    (CircularEngine.create M gradp nm scale a r u t).wrs.length =
      (if gradp then M + 1 else 0) ∧
    (CircularEngine.create M gradp nm scale a r u t).wtc.length =
      (if gradp then M + 1 else 0) ∧
    (CircularEngine.create M gradp nm scale a r u t).wts.length =
      (if gradp then M + 1 else 0) ∧
    (∀ v ∈ (CircularEngine.create M gradp nm scale a r u t).wrc, v = 0) ∧
    (∀ v ∈ (CircularEngine.create M gradp nm scale a r u t).wrs, v = 0) ∧
    (∀ v ∈ (CircularEngine.create M gradp nm scale a r u t).wtc, v = 0) ∧
    (∀ v ∈ (CircularEngine.create M gradp nm scale a r u t).wts, v = 0) ∧
    (CircularEngine.create M gradp nm scale a r u t).q = a / r ∧
    (CircularEngine.create M gradp nm scale a r u t).uq =
      u * (CircularEngine.create M gradp nm scale a r u t).q ∧
    (CircularEngine.create M gradp nm scale a r u t).uq2 =
      (CircularEngine.create M gradp nm scale a r u t).uq ^ 2 := by
  refine ⟨?_, ?_, ?_, ?_, ?_, ?_, ?_, ?_, ?_, ?_, ?_, ?_, rfl, rfl, ?_⟩
  · simp [CircularEngine.create]
  · simp [CircularEngine.create]
  · intro v hv
    exact List.eq_of_mem_replicate hv
  · intro v hv
    exact List.eq_of_mem_replicate hv
  · simp [CircularEngine.create]
  · simp [CircularEngine.create]
  · simp [CircularEngine.create]
  · simp [CircularEngine.create]
  · intro v hv
    exact List.eq_of_mem_replicate hv
  · intro v hv
    exact List.eq_of_mem_replicate hv
  · intro v hv
    exact List.eq_of_mem_replicate hv
  · intro v hv
    exact List.eq_of_mem_replicate hv
  · rw [pow_two]
    rfl

/-- C5, witness: the constructed engine `eW` (parameters
`M = 2, gradp = true`) has a value-coefficient array of length 3. -/
theorem create_initial_state_witness :
    (CircularEngine.create 2 true normalization.full 6 2 3 4 5).wc.length =
      2 + 1 :=
  (create_initial_state 2 true normalization.full 6 2 3 4 5).1

/-- Shape of the seven-argument `SetCoeff` when `_gradp` is true: all six
arrays are updated at index `m`. -/
theorem SetCoeffGrad_gradp_true (e : CircularEngine) (m : ℕ)
    (wc1 ws1 wrc1 wrs1 wtc1 wts1 : ℚ) (hg : e.gradp = true) :
    e.SetCoeffGrad m wc1 ws1 wrc1 wrs1 wtc1 wts1 =
      { e with wc := e.wc.set m wc1, ws := e.ws.set m ws1,
               wrc := e.wrc.set m wrc1, wrs := e.wrs.set m wrs1,
               wtc := e.wtc.set m wtc1, wts := e.wts.set m wts1 } := by
  unfold CircularEngine.SetCoeffGrad
  rw [hg]
  rfl

/-- Shape of the seven-argument `SetCoeff` when `_gradp` is false: only
the two value arrays are updated at index `m`. -/
theorem SetCoeffGrad_gradp_false (e : CircularEngine) (m : ℕ)
    (wc1 ws1 wrc1 wrs1 wtc1 wts1 : ℚ) (hg : e.gradp = false) :
    e.SetCoeffGrad m wc1 ws1 wrc1 wrs1 wtc1 wts1 =
      { e with wc := e.wc.set m wc1, ws := e.ws.set m ws1 } := by
  unfold CircularEngine.SetCoeffGrad
  rw [hg]
  rfl

/-- C6: on a well-formed engine and an order `m ≤ M`, the seven-argument
`SetCoeff` stores the value coefficients at index `m` unconditionally,
stores the four derivative coefficients at `m` only when `gradp` is true,
and when `gradp` is false leaves the gradient arrays and every field other
than `_wc[m]` and `_ws[m]` unchanged. -/
theorem SetCoeffGrad_spec (e : CircularEngine) (m : ℕ)
    (wc1 ws1 wrc1 wrs1 wtc1 wts1 : ℚ) (hw : WF e) (hm : m ≤ e.M) :
    (e.SetCoeffGrad m wc1 ws1 wrc1 wrs1 wtc1 wts1).wc[m]? = some wc1 ∧
    (e.SetCoeffGrad m wc1 ws1 wrc1 wrs1 wtc1 wts1).ws[m]? = some ws1 ∧
    (e.gradp = true →
      (e.SetCoeffGrad m wc1 ws1 wrc1 wrs1 wtc1 wts1).wrc[m]? = some wrc1 ∧
      (e.SetCoeffGrad m wc1 ws1 wrc1 wrs1 wtc1 wts1).wrs[m]? = some wrs1 ∧
      (e.SetCoeffGrad m wc1 ws1 wrc1 wrs1 wtc1 wts1).wtc[m]? = some wtc1 ∧
      (e.SetCoeffGrad m wc1 ws1 wrc1 wrs1 wtc1 wts1).wts[m]? = some wts1) ∧
    (e.gradp = false →
      (e.SetCoeffGrad m wc1 ws1 wrc1 wrs1 wtc1 wts1).wrc = e.wrc ∧
      (e.SetCoeffGrad m wc1 ws1 wrc1 wrs1 wtc1 wts1).wrs = e.wrs ∧
      (e.SetCoeffGrad m wc1 ws1 wrc1 wrs1 wtc1 wts1).wtc = e.wtc ∧
      (e.SetCoeffGrad m wc1 ws1 wrc1 wrs1 wtc1 wts1).wts = e.wts) ∧
    (e.SetCoeffGrad m wc1 ws1 wrc1 wrs1 wtc1 wts1).M = e.M ∧
    (e.SetCoeffGrad m wc1 ws1 wrc1 wrs1 wtc1 wts1).gradp = e.gradp ∧
    (e.SetCoeffGrad m wc1 ws1 wrc1 wrs1 wtc1 wts1).norm = e.norm ∧
    (e.SetCoeffGrad m wc1 ws1 wrc1 wrs1 wtc1 wts1).scale = e.scale ∧
    (e.SetCoeffGrad m wc1 ws1 wrc1 wrs1 wtc1 wts1).a = e.a ∧
    (e.SetCoeffGrad m wc1 ws1 wrc1 wrs1 wtc1 wts1).r = e.r ∧
    (e.SetCoeffGrad m wc1 ws1 wrc1 wrs1 wtc1 wts1).u = e.u ∧
    (e.SetCoeffGrad m wc1 ws1 wrc1 wrs1 wtc1 wts1).t = e.t ∧
    (e.SetCoeffGrad m wc1 ws1 wrc1 wrs1 wtc1 wts1).q = e.q ∧
    (e.SetCoeffGrad m wc1 ws1 wrc1 wrs1 wtc1 wts1).uq = e.uq ∧
    (e.SetCoeffGrad m wc1 ws1 wrc1 wrs1 wtc1 wts1).uq2 = e.uq2 ∧
    (∀ k, k ≠ m →
      (e.SetCoeffGrad m wc1 ws1 wrc1 wrs1 wtc1 wts1).wc[k]? = e.wc[k]? ∧
      (e.SetCoeffGrad m wc1 ws1 wrc1 wrs1 wtc1 wts1).ws[k]? = e.ws[k]?) := by
  obtain ⟨hwc, hws, hwrc, hwrs, hwtc, hwts⟩ := hw
  have hmc : m < e.wc.length := by rw [hwc]; omega
  have hms : m < e.ws.length := by rw [hws]; omega
  cases hg : e.gradp with
  | true =>
    have h3 : m < e.wrc.length := by rw [hwrc, hg, if_pos rfl]; omega
    have h4 : m < e.wrs.length := by rw [hwrs, hg, if_pos rfl]; omega
    have h5 : m < e.wtc.length := by rw [hwtc, hg, if_pos rfl]; omega
    have h6 : m < e.wts.length := by rw [hwts, hg, if_pos rfl]; omega
    rw [SetCoeffGrad_gradp_true e m wc1 ws1 wrc1 wrs1 wtc1 wts1 hg]
    refine ⟨List.getElem?_set_eq_of_lt wc1 hmc,
      List.getElem?_set_eq_of_lt ws1 hms,
      fun _ => ⟨List.getElem?_set_eq_of_lt wrc1 h3,
        List.getElem?_set_eq_of_lt wrs1 h4,
        List.getElem?_set_eq_of_lt wtc1 h5,
        List.getElem?_set_eq_of_lt wts1 h6⟩,
      fun hfalse => Bool.noConfusion hfalse,
      rfl, hg, rfl, rfl, rfl, rfl, rfl, rfl, rfl, rfl, rfl, ?_⟩
    intro k hk
    constructor
    · rw [List.getElem?_set_ne (by omega : m ≠ k)]
    · rw [List.getElem?_set_ne (by omega : m ≠ k)]
  | false =>
    rw [SetCoeffGrad_gradp_false e m wc1 ws1 wrc1 wrs1 wtc1 wts1 hg]
    refine ⟨List.getElem?_set_eq_of_lt wc1 hmc,
      List.getElem?_set_eq_of_lt ws1 hms,
      fun htrue => Bool.noConfusion htrue,
      fun _ => ⟨rfl, rfl, rfl, rfl⟩,
      rfl, hg, rfl, rfl, rfl, rfl, rfl, rfl, rfl, rfl, rfl, ?_⟩
    intro k hk
    constructor
    · rw [List.getElem?_set_ne (by omega : m ≠ k)]
    · rw [List.getElem?_set_ne (by omega : m ≠ k)]

/-- C6, witness: on the gradient-free engine `eWnog` with `m = 1`, the
value coefficient is stored and the gradient array `_wrc` is left
unchanged. -/
theorem SetCoeffGrad_spec_witness :
    (eWnog.SetCoeffGrad 1 10 11 12 13 14 15).wc[1]? = some 10 ∧
    (eWnog.SetCoeffGrad 1 10 11 12 13 14 15).wrc = eWnog.wrc := by
  have h := SetCoeffGrad_spec eWnog 1 10 11 12 13 14 15
    ⟨rfl, rfl, rfl, rfl, rfl, rfl⟩ le_rfl
  exact ⟨h.1, (h.2.2.2.1 rfl).1⟩

/-- C7: an evaluator whose stored coefficient arrays are all zero returns
value exactly 0 from every evaluation operator, and exactly `(0, 0, 0)`
for the three gradient components in the gradient forms, for every
longitude and every `(cos, sin)` input. -/
theorem allZero_eval_zero (lib : TrigLib) (e : CircularEngine)
    (h : allCoeffsZero e) (lon coslon sinlon : ℚ) :
    e.evalLon lib lon = 0 ∧ e.evalCS coslon sinlon = 0 ∧
    e.evalLonGrad lib lon = (0, 0, 0, 0) ∧
    e.evalCSGrad coslon sinlon = (0, 0, 0, 0) := by
  have hv := Value_allZero e h
  refine ⟨?_, ?_, ?_, ?_⟩ <;>
    simp [CircularEngine.evalLon, CircularEngine.evalCS,
      CircularEngine.evalLonGrad, CircularEngine.evalCSGrad, hv]

/-- C7, witness: the freshly constructed engine `eW` (all coefficients
zero) evaluates to 0 with zero gradient at the input `(3, 4)`. -/
theorem allZero_eval_zero_witness :
    eW.evalCS 3 4 = 0 ∧ eW.evalCSGrad 3 4 = (0, 0, 0, 0) := by
  have hz : allCoeffsZero eW :=
    ⟨fun v hv => List.eq_of_mem_replicate hv,
     fun v hv => List.eq_of_mem_replicate hv,
     fun v hv => List.eq_of_mem_replicate hv,
     fun v hv => List.eq_of_mem_replicate hv,
     fun v hv => List.eq_of_mem_replicate hv,
     fun v hv => List.eq_of_mem_replicate hv⟩
  have h := allZero_eval_zero libW eW hz 7 3 4
  exact ⟨h.2.1, h.2.2.2⟩

/-- C8: each evaluation operator is a deterministic pure function of the
frozen state and the input: a call leaves the object state unchanged, and
a second call with identical inputs on the post-call state returns an
identical result (including the gradient out-values). -/
theorem eval_deterministic (lib : TrigLib) (e : CircularEngine)
    (lon coslon sinlon : ℚ) :
    ((e.callLon lib lon).2 = e ∧
      ((e.callLon lib lon).2.callLon lib lon).1 = (e.callLon lib lon).1) ∧
    ((e.callCS coslon sinlon).2 = e ∧
      ((e.callCS coslon sinlon).2.callCS coslon sinlon).1 =
        (e.callCS coslon sinlon).1) ∧
    ((e.callLonGrad lib lon).2 = e ∧
      ((e.callLonGrad lib lon).2.callLonGrad lib lon).1 =
        (e.callLonGrad lib lon).1) ∧
    ((e.callCSGrad coslon sinlon).2 = e ∧
      ((e.callCSGrad coslon sinlon).2.callCSGrad coslon sinlon).1 =
        (e.callCSGrad coslon sinlon).1) :=
  ⟨⟨rfl, rfl⟩, ⟨rfl, rfl⟩, ⟨rfl, rfl⟩, ⟨rfl, rfl⟩⟩

/-- C9: on an engine built by the constructor with any `M ≥ 0` and any
order `m ≤ M`, both `SetCoeff` overloads perform only in-bounds array
accesses: the bounds-checked variants return `some`. -/
theorem setCoeffChecked_in_bounds (M : ℕ) (gradp : Bool)
    (nm : normalization) (scale a r u t : ℚ) (m : ℕ)
    (wc1 ws1 wrc1 wrs1 wtc1 wts1 : ℚ) (hm : m ≤ M) :
    ((CircularEngine.create M gradp nm scale a r u t).SetCoeffChecked
        m wc1 ws1).isSome = true ∧
    ((CircularEngine.create M gradp nm scale a r u t).SetCoeffGradChecked
        m wc1 ws1 wrc1 wrs1 wtc1 wts1).isSome = true := by
  have hlen : m < M + 1 := by omega
  cases gradp <;>
    simp [CircularEngine.create, CircularEngine.SetCoeffChecked,
      CircularEngine.SetCoeffGradChecked, setChecked, hlen]

/-- C9, witness: the constructor with `M = 2, gradp = true` followed by
either `SetCoeff` overload at `m = 2` performs only in-bounds accesses. -/
theorem setCoeffChecked_in_bounds_witness :
    ((CircularEngine.create 2 true normalization.full 6 2 3 4 5).SetCoeffChecked
        2 7 8).isSome = true ∧
    ((CircularEngine.create 2 true normalization.full 6 2 3 4 5).SetCoeffGradChecked
        2 7 8 9 10 11 12).isSome = true :=
  setCoeffChecked_in_bounds 2 true normalization.full 6 2 3 4 5 2
    7 8 9 10 11 12 (by omega)

/-- C10: a longitude already in `[-180, 180)` is left unchanged by the
wrap step, so the angle reduction is idempotent on its own output range:
reducing an already-reduced representative produces the same
`(cos, sin)` pair. -/
theorem wrap_fixed_on_reduced (lib : TrigLib) (x : ℚ) (h1 : -180 ≤ x)
    (h2 : x < 180) :
    wrap x = x ∧ cossin lib (wrap x) = cossin lib x := by
  have hw : wrap x = x := by
    unfold wrap
    rw [if_neg (not_le.mpr h2), if_neg (not_lt.mpr h1)]
  exact ⟨hw, by rw [hw]⟩

/-- C10, witness: the longitude 45 is a fixed point of the wrap step and
reducing it twice gives the same pair as reducing it once. -/
theorem wrap_fixed_on_reduced_witness :
    wrap 45 = 45 ∧ cossin libW (wrap 45) = cossin libW 45 :=
  wrap_fixed_on_reduced libW 45 (by norm_num) (by norm_num)

end GeographicLib
